import Mathlib

/-!
Verification of the DarkPool-Market-Maker-Example repository (Go) against its
natural-language specification.  The Go source is shallowly embedded:

* bytes are `List Nat` (each entry a byte value), machine integers are `Nat`
  or `Int`, `*big.Int` is `Int`;
* `keccak256` and raw ECDSA signing (go-ethereum `crypto.Keccak256` /
  `crypto.Sign`) are pure deterministic library functions; they are taken as
  parameters of the embedding, bundled in the `Crypto` structure, since the
  claims depend only on how the repository composes them, never on their
  internals;
* stateful Go objects (`Reconnector`, `Heartbeat`, the websocket client)
  become explicit state-passing functions;
* fallible Go code returning `(T, error)` becomes `Option`/`Except`, or a
  pair with an explicit error component where a claim is about the error
  component itself.
-/

namespace DarkPoolMM

/-- Bytes of an ASCII/UTF-32-codepoint string (the strings that occur in the
embedded code are all ASCII, where Go's UTF-8 bytes coincide with the
codepoints). -/
def strBytes (s : String) : List Nat := s.data.map Char.toNat

/-- Big-endian byte rendering of a natural number into exactly `len` bytes
(higher bytes dropped, i.e. the value is taken mod `256 ^ len`). -/
def beBytes (len : Nat) (n : Nat) : List Nat :=
  (List.range len).map (fun i => n / 256 ^ (len - 1 - i) % 256)

/-- Big-endian value of a byte list (go-ethereum `new(big.Int).SetBytes`). -/
def bytesToNat (bs : List Nat) : Nat := bs.foldl (fun a b => 256 * a + b) 0

/-- Pad or truncate a byte list to exactly 32 bytes (an ABI `bytes32` word). -/
def fit32 (bs : List Nat) : List Nat := (bs ++ List.replicate 32 0).take 32

/-- Value of one hexadecimal digit character, `none` for a non-hex character
(mirrors the per-character failure of Go `hex.DecodeString`). -/
def hexDigitVal (c : Char) : Option Nat :=
  if 48 ≤ c.toNat ∧ c.toNat ≤ 57 then some (c.toNat - 48)
  else if 97 ≤ c.toNat ∧ c.toNat ≤ 102 then some (c.toNat - 87)
  else if 65 ≤ c.toNat ∧ c.toNat ≤ 70 then some (c.toNat - 55)
  else none

/-- Decode hex characters pairwise into bytes, stopping at the first invalid
pair.  Go's `common.Hex2Bytes` calls `hex.DecodeString` and ignores the
error, keeping the bytes decoded before the failure. -/
def decodeHexPairs : List Char → List Nat
  | c1 :: c2 :: rest =>
    match hexDigitVal c1, hexDigitVal c2 with
    | some h, some l => (16 * h + l) :: decodeHexPairs rest
    | _, _ => []
  | _ => []

/-- Embedding of go-ethereum `common.HexToAddress`: strip an optional
`0x`/`0X`, left-pad to even length with a `0`, hex-decode, and keep the last
20 bytes of the result (`BytesToAddress`).  An address is its `Nat` value
(< 2^160). -/
def hexToAddress (s : String) : Nat :=
  let cs := s.data
  let cs := if cs.take 2 = ['0', 'x'] ∨ cs.take 2 = ['0', 'X'] then cs.drop 2 else cs
  let cs := if cs.length % 2 = 1 then '0' :: cs else cs
  bytesToNat (decodeHexPairs cs) % 2 ^ 160

/-- Lowercase one ASCII character (the address strings compared in the code
are ASCII, where Go `strings.ToLower` acts exactly like this). -/
def lowerChar (c : Char) : Char :=
  if 65 ≤ c.toNat ∧ c.toNat ≤ 90 then Char.ofNat (c.toNat + 32) else c

/-- Embedding of Go `strings.ToLower` on the ASCII strings used by the code. -/
def lowerStr (s : String) : String := ⟨s.data.map lowerChar⟩

/-- Hexadecimal digit character (lowercase). -/
def hexChar (n : Nat) : Char :=
  if n < 10 then Char.ofNat (48 + n) else Char.ofNat (87 + n)

/-- Lowercase `0x`-prefixed 40-digit rendering of an address.  Go
`common.Address.Hex` is EIP-55 checksummed (mixed case), but every use in the
embedded code lowercases the result or compares it case-insensitively, so the
lowercase form is an equivalent model. -/
def addrHex (a : Nat) : String :=
  ⟨'0' :: 'x' :: (List.range 40).map (fun i => hexChar (a % 2 ^ 160 / 16 ^ (39 - i) % 16))⟩

/-- All-digit decimal value of a character list, `none` if empty or if any
character is not a decimal digit. -/
def parseDigits (cs : List Char) : Option Nat :=
  if cs = [] then none
  else
    cs.foldl
      (fun acc c =>
        match acc with
        | none => none
        | some n =>
          if 48 ≤ c.toNat ∧ c.toNat ≤ 57 then some (10 * n + (c.toNat - 48)) else none)
      (some 0)

/-- Embedding of Go `new(big.Int).SetString(s, 10)`: an optional sign followed
by at least one decimal digit. -/
def parseDec (s : String) : Option Int :=
  match s.data with
  | '+' :: rest => (parseDigits rest).map (fun n => (n : Int))
  | '-' :: rest => (parseDigits rest).map (fun n => -(n : Int))
  | cs => (parseDigits cs).map (fun n => (n : Int))

/-! ## Cryptographic primitives

`keccak256` and raw ECDSA signing are deterministic pure functions supplied by
go-ethereum.  The embedding is parametric in them: every claim below holds
for an arbitrary choice of these functions (their internals never matter,
only the repository's composition of them). -/

/-- Deterministic cryptographic primitives used by the signer:
`keccak` embeds go-ethereum `crypto.Keccak256`, `ecdsaSign` embeds
`crypto.Sign privateKey digest` (which for valid inputs returns a 65-byte
`[R || S || V]` signature with `V ∈ {0,1}`). -/
structure Crypto where
  keccak : List Nat → List Nat
  ecdsaSign : (key : List Nat) → (digest : List Nat) → List Nat

/-! ## Signer package (`internal/signer`) -/

/-- Embedding of `signer.MMQuote` (types.go).  The Go fields `From`/`To` are
named `fromAddr`/`toAddr` because `from` is a Lean keyword.  `*big.Int`
fields are `Int`. -/
structure MMQuote where
  pool : Nat
  fromAddr : Nat
  toAddr : Nat
  inputToken : Nat
  outputToken : Nat
  amountIn : Int
  amountOut : Int
  deadline : Int
  nonce : Int
  extraData : List Nat

/-- A statically-encoded ABI value, tagging the three argument types used by
`hashMMQuote` and `DomainSeparator` (`bytes32`, `address`, `uint256`). -/
inductive AbiVal where
  | b32 (bs : List Nat)
  | addr (a : Nat)
  | u256 (v : Int)

/-- The 32-byte ABI head word of a static value: a `bytes32` verbatim, an
address left-padded with 12 zero bytes, a `uint256` big-endian two's
complement mod 2^256 (go-ethereum `math.U256Bytes`). -/
def abiWord : AbiVal → List Nat
  | .b32 bs => fit32 bs
  | .addr a => List.replicate 12 0 ++ beBytes 20 a
  | .u256 v => beBytes 32 (v % (2 ^ 256 : Int)).toNat

/-- Embedding of `abi.Arguments.Pack` for a tuple of static types: the
concatenation of the 32-byte words in declared order. -/
def abiPackStatic (vs : List AbiVal) : List Nat := (vs.map abiWord).flatten

/-- The `MMQuote` EIP-712 type string hashed into `MMQuoteTypeHash`
(types.go). -/
def mmQuoteTypeString : String :=
  "MMQuote(address pool,address from,address to,address inputToken,address outputToken," ++
    "uint256 amountIn,uint256 amountOut,uint256 deadline,uint256 nonce,bytes32 extraDataHash)"

/-- Embedding of `signer.MMQuoteTypeHash` (types.go). -/
def mmQuoteTypeHash (C : Crypto) : List Nat := C.keccak (strBytes mmQuoteTypeString)

/-- Embedding of `hashMMQuote` (signer.go): keccak256 of the ABI packing of
the type hash and the ten quote fields, in the order of the `args` list in
the source. -/
def hashMMQuote (C : Crypto) (q : MMQuote) : List Nat :=
  C.keccak (abiPackStatic
    [ .b32 (mmQuoteTypeHash C)   -- typeHash
    , .addr q.pool               -- rfqManager
    , .addr q.fromAddr           -- from
    , .addr q.toAddr             -- to
    , .addr q.inputToken         -- inputToken
    , .addr q.outputToken        -- outputToken
    , .u256 q.amountIn           -- amountIn
    , .u256 q.amountOut          -- amountOut
    , .u256 q.deadline           -- deadline
    , .u256 q.nonce              -- nonce
    , .b32 (C.keccak q.extraData)]) -- extraDataHash

/-- Embedding of `signer.EIP712Domain` (domain.go). -/
structure EIP712DomainS where
  name : String
  version : String
  chainId : Nat
  verifyingContract : Nat

/-- The EIP-712 domain type string hashed inside `DomainSeparator`. -/
def eip712DomainTypeString : String :=
  "EIP712Domain(string name,string version,uint256 chainId,address verifyingContract)"

/-- Embedding of `EIP712Domain.DomainSeparator` (domain.go). -/
def domainSeparator (C : Crypto) (d : EIP712DomainS) : List Nat :=
  C.keccak (abiPackStatic
    [ .b32 (C.keccak (strBytes eip712DomainTypeString))
    , .b32 (C.keccak (strBytes d.name))
    , .b32 (C.keccak (strBytes d.version))
    , .u256 (d.chainId : Int)
    , .addr d.verifyingContract])

/-- Default domain name of `signer.DefaultDomainName`. -/
def defaultDomainName : String := "RFQ Manager"

/-- Default domain version of `signer.DefaultDomainVersion`. -/
def defaultDomainVersion : String := "1"

/-- Embedding of `signer.DomainManager`: the chain-indexed map
`rfqManagerDomains` as a lookup function. -/
def DomainMap : Type := Nat → Option EIP712DomainS

/-- Embedding of `DomainManager.AddPoolDomainWithConfig` (domain.go): upsert,
with empty name/version falling back to the fixed defaults. -/
def addPoolDomainWithConfig (dm : DomainMap) (chainId : Nat)
    (name version poolAddr : String) : DomainMap := fun c =>
  if c = chainId then
    some
      { name := if name = "" then defaultDomainName else name
        version := if version = "" then defaultDomainVersion else version
        chainId := chainId
        verifyingContract := hexToAddress poolAddr }
  else dm c

/-- Embedding of `DomainManager.GetPoolDomainSeparator` (domain.go). -/
def getPoolDomainSeparator (C : Crypto) (dm : DomainMap) (chainId : Nat) :
    Option (List Nat) :=
  (dm chainId).map (domainSeparator C)

/-- Embedding of the recovery-byte adjustment in `SignMMQuote`
(signer.go): `if sig[64] < 27 { sig[64] += 27 }`. -/
def normalizeV (sig : List Nat) : List Nat :=
  let v := sig.getD 64 0
  if v < 27 then sig.set 64 (v + 27) else sig

/-- Embedding of `signer.SignMMQuote` (signer.go): look up the chain's
domain separator (failing if the chain is unregistered), hash the quote,
form the EIP-712 digest `keccak256(0x19 0x01 || domainSeparator ||
structHash)`, ECDSA-sign it and normalize the recovery byte. -/
def signMMQuote (C : Crypto) (key : List Nat) (dm : DomainMap) (chainId : Nat)
    (q : MMQuote) : Option (List Nat) :=
  match getPoolDomainSeparator C dm chainId with
  | none => none
  | some ds =>
    let structHash := hashMMQuote C q
    let digest := C.keccak (0x19 :: 0x01 :: (ds ++ structHash))
    some (normalizeV (C.ecdsaSign key digest))

/-! ## Reconnection controller (`ws.Reconnector`)

Intervals are `time.Duration`, i.e. signed 64-bit nanosecond counts, embedded
as `Int`.  The growth step multiplies by a `float64`; the multiplier is
embedded as a rational and the `float64 → time.Duration` conversion as
truncation toward zero, which coincides with the Go computation whenever the
values involved are exactly representable in `float64` (in particular for
integer multipliers and intervals below `2^53` ns). -/

/-- Embedding of `ws.ReconnectConfig`.  The `float64` multiplier is carried
as its exact rational value `multNum / multDen` (every finite `float64` is a
rational; `multDen` is positive). -/
structure ReconnectConfig where
  initialInterval : Int
  maxInterval : Int
  maxAttempts : Int
  multNum : Int
  multDen : Int

/-- Embedding of `ws.Reconnector`: configuration, the `atomic.Int32` attempt
counter and the current interval. -/
structure Reconnector where
  config : ReconnectConfig
  attempts : Int
  interval : Int

/-- Wrap of a signed 32-bit add (the `atomic.Int32` attempt counter). -/
def wrap32 (z : Int) : Int := (z + 2 ^ 31) % 2 ^ 32 - 2 ^ 31

/-- Embedding of `ws.NewReconnector` (nil-config default omitted): a zero
multiplier falls back to 2.0, a zero ceiling to 32× the initial interval, and
the current interval starts at the initial interval. -/
def newReconnector (config : ReconnectConfig) : Reconnector :=
  let config :=
    if config.multNum = 0 then { config with multNum := 2, multDen := 1 } else config
  let config :=
    if config.maxInterval = 0 then { config with maxInterval := config.initialInterval * 32 }
    else config
  { config := config, attempts := 0, interval := config.initialInterval }

/-- Embedding of `Reconnector.ShouldReconnect`. -/
def shouldReconnect (r : Reconnector) : Bool :=
  r.config.maxAttempts = 0 ∨ r.attempts < r.config.maxAttempts

/-- Embedding of `Reconnector.NextInterval`: increment the attempt counter,
return the current interval, and grow it by the multiplier clamped at the
ceiling.  `time.Duration(float64(r.interval) * multiplier)` truncates toward
zero, i.e. is `(interval * multNum).tdiv multDen` — but this exact
arithmetic coincides with the Go `float64` computation only where every
value is exactly representable: for an integer multiplier `M` this holds
precisely when each product `interval·M` stays below `2^53` (integers below
`2^53` are exact in `float64`, and IEEE multiplication of exact operands
whose true product is representable returns it exactly; the `int64`
conversion of such an integral value is then exact and in range).  Above
`2^53` the conversion `float64(interval)` itself rounds (e.g.
`float64(2^53+1) = 2^53`), so the theorems about this model carry an
explicit `ceiling · multiplier < 2^53` bound restricting them to the
faithful regime. -/
def nextInterval (r : Reconnector) : Int × Reconnector :=
  let attempts := wrap32 (r.attempts + 1)
  let current := r.interval
  let next := (r.interval * r.config.multNum).tdiv r.config.multDen
  let next := if r.config.maxInterval < next then r.config.maxInterval else next
  (current, { r with attempts := attempts, interval := next })

/-- Embedding of `Reconnector.Reset`. -/
def resetReconnector (r : Reconnector) : Reconnector :=
  { r with attempts := 0, interval := r.config.initialInterval }

/-- State of the reconnector after `n` calls to `NextInterval`. -/
def iterCalls (r : Reconnector) : Nat → Reconnector
  | 0 => r
  | n + 1 => (nextInterval (iterCalls r n)).2

/-- The value returned by the `n`-th call (`n ≥ 1`) to `NextInterval`. -/
def nthInterval (r : Reconnector) (n : Nat) : Int :=
  (nextInterval (iterCalls r (n - 1))).1

/-! ## Liveness monitor (`ws.Heartbeat`)

Times are Unix nanoseconds (`Int`).  One `check` tick is embedded as a pure
transition on the heartbeat state emitting a list of observable actions. -/

/-- Embedding of `ws.HeartbeatConfig` (durations in nanoseconds). -/
structure HeartbeatConfig where
  interval : Int
  readTimeout : Int

/-- Mutable state of `ws.Heartbeat`: the `lastReceived` timestamp and the
`timeoutDetected` duplicate-suppression flag. -/
structure HBState where
  lastReceived : Int
  timeoutDetected : Bool

/-- Observable actions of one heartbeat tick: the timeout warning log, a call
to the session's `TriggerReconnect`, or a liveness ping send. -/
inductive HBAction where
  | warnLog
  | trigger
  | ping
  deriving DecidableEq

/-- Embedding of `Heartbeat.check` (heartbeat.go): if elapsed time since last
activity exceeds the read timeout, set the suppression flag (logging the
warning only if it was clear) and call `TriggerReconnect`; otherwise clear
the flag and send a ping. -/
def hbCheck (cfg : HeartbeatConfig) (now : Int) (s : HBState) : HBState × List HBAction :=
  let elapsed := now - s.lastReceived
  if cfg.readTimeout < elapsed then
    ({ s with timeoutDetected := true },
      if s.timeoutDetected then [HBAction.trigger] else [HBAction.warnLog, HBAction.trigger])
  else
    ({ s with timeoutDetected := false }, [HBAction.ping])

/-- Run `check` at each tick time of a list, accumulating the actions. -/
def runChecks (cfg : HeartbeatConfig) (s : HBState) : List Int → HBState × List HBAction
  | [] => (s, [])
  | t :: ts =>
    let step := hbCheck cfg t s
    let rest := runChecks cfg step.1 ts
    (rest.1, step.2 ++ rest.2)

/-- Embedding of `Heartbeat.OnMessageReceived`. -/
def onMessageReceived (now : Int) (s : HBState) : HBState :=
  { s with lastReceived := now }

/-! ## WebSocket client (`ws.client`) and depth pusher (`depth.Pusher`) -/

/-- Embedding of `ws.ConnectionState`. -/
inductive ConnState where
  | disconnected
  | connecting
  | connected
  | ready
  deriving DecidableEq

/-- Embedding of `client.IsConnected`: true in states Connected and Ready. -/
def isConnected (s : ConnState) : Bool :=
  match s with
  | .connected => true
  | .ready => true
  | _ => false

/-- The `SetState` call sites of the repository, one constructor per site:
`doConnect` entry (→ Connecting), dial failure (→ Disconnected), dial
success (→ Connected), `Close` (→ Disconnected), the start of
`reconnectLoop` (→ Disconnected), and the depth pusher's
`handleConnectionAck` (→ Ready only when the acknowledgment has
`success = true`, otherwise no transition). -/
inductive ClientEvent where
  | dialStart
  | dialFail
  | dialSuccess
  | closeSession
  | reconnectBegin
  | connectionAck (success : Bool)
  deriving DecidableEq

/-- The state written by each `SetState` call site. -/
def stepState : ConnState → ClientEvent → ConnState
  | _, .dialStart => .connecting
  | _, .dialFail => .disconnected
  | _, .dialSuccess => .connected
  | _, .closeSession => .disconnected
  | _, .reconnectBegin => .disconnected
  | s, .connectionAck b => if b then .ready else s

/-- Outcome of one `client.Send` call: the returned error (if any), the
frames actually written to the transport, and whether a reconnect was
triggered. -/
structure SendOutcome where
  result : Except String Unit
  writes : List (List Nat)
  reconnectTriggered : Bool

/-- Embedding of `client.Send` (client.go) for a message of any type `α`.
The protobuf marshaller and the two fallible transport calls
(`SetWriteDeadline`, `WriteMessage`) are parameters: `deadlineErr` /
`writeErr` are the errors those calls would return (`none` = success). -/
def clientSend (state : ConnState) (conn : Option Unit)
    (marshal : α → Except String (List Nat)) (deadlineErr writeErr : Option String)
    (msg : α) : SendOutcome :=
  if ¬ isConnected state then ⟨.error "websocket not connected", [], false⟩
  else
    match marshal msg with
    | .error e => ⟨.error ("failed to marshal message: " ++ e), [], false⟩
    | .ok data =>
      match conn with
      | none => ⟨.error "websocket connection is nil", [], false⟩
      | some _ =>
        match deadlineErr with
        | some e => ⟨.error ("failed to set write deadline: " ++ e), [], true⟩
        | none =>
          match writeErr with
          | some e => ⟨.error ("failed to write message: " ++ e), [], true⟩
          | none => ⟨.ok (), [data], false⟩

/-! ## Configuration (`config.Config`) -/

/-- Embedding of `config.EIP712Domain`. -/
structure DomainCfg where
  chainId : Nat
  name : String
  version : String
  verifyingContract : String
  deriving DecidableEq

/-- Embedding of `config.PairConfig`. -/
structure PairCfg where
  chainId : Nat
  pairId : String
  poolAddress : String
  baseToken : String
  quoteToken : String
  baseTokenDecimals : Int
  quoteTokenDecimals : Int
  feeRate : Nat
  deriving DecidableEq

/-- The part of `config.Config` the embedded components read (quote validity
in milliseconds). -/
structure ConfigM where
  domains : List DomainCfg
  pairs : List PairCfg
  validDurationMs : Int
  deriving DecidableEq

/-- Embedding of `Config.GetEIP712Domain`: first entry with the chain id. -/
def getEIP712Domain (cfg : ConfigM) (chainId : Nat) : Option DomainCfg :=
  cfg.domains.find? (fun d => d.chainId == chainId)

/-- Embedding of `Config.GetPairConfig`: first pair on the chain matching the
two (lowercased) token strings in either order. -/
def getPairConfig (cfg : ConfigM) (chainId : Nat) (tokenIn tokenOut : String) :
    Option PairCfg :=
  let tIn := lowerStr tokenIn
  let tOut := lowerStr tokenOut
  cfg.pairs.find? (fun p =>
    p.chainId == chainId &&
      ((lowerStr p.baseToken == tIn && lowerStr p.quoteToken == tOut) ||
        (lowerStr p.quoteToken == tIn && lowerStr p.baseToken == tOut)))

/-! ## Quote pipeline (`quote.Handler`) -/

/-- Embedding of the `quote.WrappedNativeTokens` map (strategy.go). -/
def wrappedNativeTokens (chainId : Nat) : Option Nat :=
  if chainId = 56 then some (hexToAddress "0xbb4cdb9cbd36b01bd1cbaebf2de08d9173bc095c")
  else if chainId = 8453 then some (hexToAddress "0x4200000000000000000000000000000000000006")
  else if chainId = 1 then some (hexToAddress "0xc02aaa39b223fe8d0a0e5c4f27ead9083c756cc2")
  else none

/-- Embedding of `mmv1.QuoteRequest` (the fields the handler reads). -/
structure QuoteRequestM where
  quoteId : String
  chainId : Nat
  tokenIn : String
  tokenOut : String
  amountIn : String
  slippageBps : Nat
  recipient : String
  deadline : Int
  nonce : String
  deriving DecidableEq

/-- Embedding of `quote.QuoteParams`. -/
structure QuoteParamsM where
  chainId : Nat
  tokenIn : Nat
  tokenOut : Nat
  amountIn : Int
  slippageBps : Nat
  deriving DecidableEq

/-- Embedding of `quote.QuoteResult`.  The `ExecutionPrice`/`PriceImpact`
fields are `big.Float`/`float64` display values never read by the embedded
control flow; they are elided. -/
structure QuoteResultM where
  amountOut : Int
  amountOutMinimum : Int
  deriving DecidableEq

/-- Embedding of `mmv1.RejectReason` (the values the handler produces). -/
inductive RejectReason where
  | internalError
  | pairNotSupported
  | insufficientLiquidity
  deriving DecidableEq

/-- Embedding of `mmv1.QuoteInfo` (numeric decimal-string fields carried as
integers). -/
structure QuoteInfoM where
  tokenIn : String
  tokenOut : String
  amountIn : String
  amountOut : Int
  amountOutMinimum : Int
  deriving DecidableEq

/-- Embedding of `mmv1.SignedOrder`.  `Nonce` is copied verbatim from the
request string; the amount fields (decimal renderings of `big.Int`s in Go)
are carried as integers. -/
structure SignedOrderM where
  signerAddr : String
  pool : String
  nonce : String
  amountIn : Int
  amountOut : Int
  deadline : Int
  extraData : List Nat
  signature : List Nat
  deriving DecidableEq

/-- Embedding of `mmv1.QuoteResponse`. -/
structure QuoteResponseM where
  quoteId : String
  chainId : Nat
  mmId : String
  quote : QuoteInfoM
  order : SignedOrderM
  validUntil : Int
  deriving DecidableEq

/-- Embedding of `mmv1.QuoteReject`. -/
structure QuoteRejectM where
  quoteId : String
  chainId : Nat
  mmId : String
  reason : RejectReason
  message : String
  deriving DecidableEq

/-- Embedding of the outbound `mmv1.Message` envelope kinds the core
produces (payload timestamps elided; the depth snapshot payload is reduced
to its identifying fields). -/
inductive Msg where
  | quoteResponse (r : QuoteResponseM)
  | quoteReject (j : QuoteRejectM)
  | depthSnapshot (chainId : Nat) (pairId : String)
  | heartbeat (ping pong : Bool)
  deriving DecidableEq

/-- Embedding of `Pusher.pushDepthSnapshot` for one pair: ask the provider
for a book and look up the chain's domain; either failure skips the pair
(logged in Go), success emits one depth-snapshot message.  The order-book
contents (floating-point price formatting) are abstracted behind `β`. -/
def pushDepthSnapshot (provider : Nat → String → Option β) (cfg : ConfigM)
    (pair : PairCfg) : Option Msg :=
  match provider pair.chainId pair.poolAddress with
  | none => none
  | some _ =>
    match getEIP712Domain cfg pair.chainId with
    | none => none
    | some _ => some (.depthSnapshot pair.chainId pair.pairId)

/-- Embedding of `Pusher.pushAllPairs` (pusher.go): transmit nothing unless
the session state is Ready, otherwise push a snapshot per configured pair. -/
def pushAllPairs (state : ConnState) (provider : Nat → String → Option β)
    (cfg : ConfigM) : List Msg :=
  if state ≠ ConnState.ready then []
  else cfg.pairs.filterMap (pushDepthSnapshot provider cfg)

/-- The handler with its injected collaborators: the pricing strategy, the
signer (`signer.Signer.SignMMQuote` behind the interface) and the signer's
address. -/
structure HandlerM where
  strategy : QuoteParamsM → Except String QuoteResultM
  signFn : Nat → MMQuote → Except String (List Nat)
  signerAddr : Nat
  cfg : ConfigM

/-- Embedding of `Handler.buildRejectMessage`. -/
def buildRejectMessage (h : HandlerM) (req : QuoteRequestM) (reason : RejectReason)
    (message : String) : Msg :=
  .quoteReject
    { quoteId := req.quoteId
      chainId := req.chainId
      mmId := lowerStr (addrHex h.signerAddr)
      reason := reason
      message := message }

/-- Embedding of `Handler.validateRequest` (strategy.go): the first failing
check's error message, or `none` when the request is valid.  `now` is
`time.Now().Unix()`. -/
def validateRequest (now : Int) (req : QuoteRequestM) : Option String :=
  if req.quoteId = "" then some "quote_id is required"
  else if req.chainId = 0 then some "chain_id is required"
  else if req.tokenIn = "" then some "token_in is required"
  else if req.tokenOut = "" then some "token_out is required"
  else if req.amountIn = "" ∨ req.amountIn = "0" then
    some "amount_in is required and must be positive"
  else if req.recipient = "" then some "recipient is required"
  else if req.deadline = 0 then some "deadline is required"
  else if req.deadline < now then some "deadline already expired"
  else none

/-- Steps 2–12 of `Handler.HandleQuoteRequest` (everything after
validation): domain lookup, zero-address substitution, pair lookup, amount
parsing, strategy call, quote construction over the original request tokens,
signing, and response assembly.  The second component is the Go `error`
return value. -/
def processValidated (h : HandlerM) (now : Int) (req : QuoteRequestM) :
    Msg × Option String :=
  match getEIP712Domain h.cfg req.chainId with
  | none =>
    (buildRejectMessage h req .pairNotSupported
      ("chain " ++ toString req.chainId ++ " not configured"), none)
  | some domain =>
    match
      (if hexToAddress req.tokenIn = 0 then wrappedNativeTokens req.chainId
        else some (hexToAddress req.tokenIn)) with
    | none =>
      (buildRejectMessage h req .internalError
        ("wrapped token not configured for chain " ++ toString req.chainId), none)
    | some tokenIn =>
      match
        (if hexToAddress req.tokenOut = 0 then wrappedNativeTokens req.chainId
          else some (hexToAddress req.tokenOut)) with
      | none =>
        (buildRejectMessage h req .internalError
          ("wrapped token not configured for chain " ++ toString req.chainId), none)
      | some tokenOut =>
        match getPairConfig h.cfg req.chainId (addrHex tokenIn) (addrHex tokenOut) with
        | none =>
          (buildRejectMessage h req .pairNotSupported
            ("pair not found for tokens " ++ addrHex tokenIn ++ "-" ++ addrHex tokenOut),
            none)
        | some _ =>
          match parseDec req.amountIn with
          | none => (buildRejectMessage h req .internalError "invalid amount_in", none)
          | some amountIn =>
            match h.strategy
                { chainId := req.chainId, tokenIn := tokenIn, tokenOut := tokenOut,
                  amountIn := amountIn, slippageBps := req.slippageBps } with
            | .error e => (buildRejectMessage h req .insufficientLiquidity e, none)
            | .ok quoteResult =>
              let extraData : List Nat := []
              let nonce := (parseDec req.nonce).getD 0
              let userAddr := hexToAddress req.recipient
              let mmQuote : MMQuote :=
                { pool := hexToAddress domain.verifyingContract
                  fromAddr := userAddr
                  toAddr := userAddr
                  inputToken := hexToAddress req.tokenIn
                  outputToken := hexToAddress req.tokenOut
                  amountIn := amountIn
                  amountOut := quoteResult.amountOutMinimum
                  deadline := req.deadline
                  nonce := nonce
                  extraData := extraData }
              match h.signFn req.chainId mmQuote with
              | .error _ => (buildRejectMessage h req .internalError "signing failed", none)
              | .ok signature =>
                (Msg.quoteResponse
                  { quoteId := req.quoteId
                    chainId := req.chainId
                    mmId := lowerStr (addrHex h.signerAddr)
                    quote :=
                      { tokenIn := lowerStr req.tokenIn
                        tokenOut := lowerStr req.tokenOut
                        amountIn := req.amountIn
                        amountOut := quoteResult.amountOut
                        amountOutMinimum := quoteResult.amountOutMinimum }
                    order :=
                      { signerAddr := lowerStr (addrHex h.signerAddr)
                        pool := lowerStr domain.verifyingContract
                        nonce := req.nonce
                        amountIn := amountIn
                        amountOut := quoteResult.amountOutMinimum
                        deadline := req.deadline
                        extraData := extraData
                        signature := signature }
                    validUntil := now * 1000 + h.cfg.validDurationMs }, none)

/-- Embedding of `Handler.HandleQuoteRequest` (strategy.go): validation
first, then the rest of the pipeline; every path returns a message together
with a `nil` Go error. -/
def handleQuoteRequest (h : HandlerM) (now : Int) (req : QuoteRequestM) :
    Msg × Option String :=
  match validateRequest now req with
  | some err => (buildRejectMessage h req .internalError err, none)
  | none => processValidated h now req

/-! ## Witness fixtures

Concrete instantiations used by the witness theorems.  The cryptographic
primitives are arbitrary deterministic stand-ins: every claim theorem is
parametric in them. -/

/-- Stand-in primitives for witnesses: a cheap deterministic `keccak` and a
65-byte signer whose recovery byte is `key.length % 2 ∈ {0, 1}`. -/
def wCrypto : Crypto where
  keccak := fun bs => [bs.length % 256, bs.foldl (fun a b => a + b) 0 % 256]
  ecdsaSign := fun key _ => List.replicate 64 (key.getD 0 0 % 256) ++ [key.length % 2]

/-- Concrete private key bytes for witnesses. -/
def wKey : List Nat := [9, 9]

/-- Concrete quote for the signer witnesses. -/
def wQuoteW : MMQuote := ⟨1, 2, 2, 3, 4, 5, 6, 7, 8, []⟩

/-- Domain map with chain 56 registered through
`AddPoolDomainWithConfig` (exercising the empty-name/version defaults). -/
def wDM : DomainMap :=
  addPoolDomainWithConfig (fun _ => none) 56 "" ""
    "0x28D3a265f6d40867986004029ee91F4C9532fCC5"

/-- The domain entry `wDM` stores for chain 56. -/
def wEntry : EIP712DomainS :=
  { name := defaultDomainName
    version := defaultDomainVersion
    chainId := 56
    verifyingContract := hexToAddress "0x28D3a265f6d40867986004029ee91F4C9532fCC5" }

/-- The signature produced by the witness signer instance. -/
def wSig : List Nat := (signMMQuote wCrypto wKey wDM 56 wQuoteW).getD []

/-- Reconnector configured with the fractional multiplier 1.5 (exactly
representable in `float64`, so the Go computation coincides with the
rational model at these values): used to refute the exact closed form. -/
def cxRec : Reconnector := newReconnector ⟨3, 1000000, 0, 3, 2⟩

/-- Heartbeat configuration used by the C6 instances (interval 30, read
timeout 90, in arbitrary time units). -/
def cxHBConfig : HeartbeatConfig := ⟨30, 90⟩

/-- Heartbeat state with last activity at time 0 and a clear flag. -/
def cxHBState : HBState := ⟨0, false⟩

/-- Depth provider stand-in for the C7 witness. -/
def wProvider : Nat → String → Option Unit := fun _ _ => some ()

/-- Domain configuration entry for chain 56 used by the handler witnesses
(mirrors the repository's test configuration). -/
def wDomainCfg : DomainCfg :=
  ⟨56, "RFQ Pool", "1", "0x28D3a265f6d40867986004029ee91F4C9532fCC5"⟩

/-- WBNB/USDT pair configuration on chain 56 used by the handler
witnesses. -/
def wPair : PairCfg :=
  ⟨56, "WBNB-USDT", "0x172fcD41E0913e95784454622d1c3724f546f849",
    "0xbb4CdB9CBd36B01bD1cBaEBF2De08d9173bc095c",
    "0x55d398326f99059fF775485246999027B3197955", 18, 18, 2500⟩

/-- Handler configuration used by the handler witnesses. -/
def wCfg : ConfigM :=
  { domains := [wDomainCfg], pairs := [wPair], validDurationMs := 30000 }

/-- Pricing strategy stand-in for the handler witnesses (600 output units
per input unit, failing on non-positive input like the mock strategy). -/
def wStrategy : QuoteParamsM → Except String QuoteResultM := fun p =>
  if p.amountIn ≤ 0 then Except.error "calculated amount out is zero or negative"
  else Except.ok ⟨p.amountIn * 600, p.amountIn * 600⟩

/-- Signer stand-in for the handler witnesses, recording the chain and the
quote's nonce in the signature bytes. -/
def wSignFn : Nat → MMQuote → Except String (List Nat) := fun c q =>
  Except.ok [c % 256, q.nonce.toNat % 256]

/-- Handler instance for the handler witnesses. -/
def wHandler : HandlerM :=
  ⟨wStrategy, wSignFn, hexToAddress "0x1234567890123456789012345678901234567890", wCfg⟩

/-- Valid WBNB→USDT request whose nonce string does not parse (C9). -/
def wReqNonce : QuoteRequestM :=
  ⟨"q2", 56, "0xbb4CdB9CBd36B01bD1cBaEBF2De08d9173bc095c",
    "0x55d398326f99059fF775485246999027B3197955", "5", 0,
    "0x1111111111111111111111111111111111111111", 2000, "abc"⟩

/-- Valid request with zero-address `token_in` (C3). -/
def wReqZero : QuoteRequestM :=
  ⟨"q3", 56, "0x0", "0x55d398326f99059fF775485246999027B3197955", "5", 0,
    "0x1111111111111111111111111111111111111111", 2000, "7"⟩

/-- Valid request whose amount string is the non-canonical zero `"00"`
(C10). -/
def wReq00 : QuoteRequestM :=
  ⟨"q1", 56, "0xbb4CdB9CBd36B01bD1cBaEBF2De08d9173bc095c",
    "0x55d398326f99059fF775485246999027B3197955", "00", 0,
    "0x1111111111111111111111111111111111111111", 2000, "1"⟩

/-! ## Theorems -/

/-- Helper: the value of `signMMQuote` on a registered chain. -/
lemma signMMQuote_some (C : Crypto) (key : List Nat) (dm : DomainMap) (chainId : Nat)
    (q : MMQuote) (ds : List Nat) (hd : getPoolDomainSeparator C dm chainId = some ds) :
    signMMQuote C key dm chainId q =
      some (normalizeV (C.ecdsaSign key
        (C.keccak (0x19 :: 0x01 :: (ds ++ hashMMQuote C q))))) := by
  simp [signMMQuote, hd]

/-- C1: for every quote and registered chain, `SignMMQuote` computes the
struct hash as keccak256 of the ABI packing — in the fixed declared order —
of the type-identifier hash, target (rfqManager/pool), from, to, input
token, output token, input amount, output amount, deadline, nonce, and the
keccak256 hash of the extra-data; the signed digest is keccak256 of the two
bytes `0x19 0x01` followed by the chain's domain separator followed by that
struct hash. -/
theorem signMMQuote_digest_formula (C : Crypto) (key : List Nat) (dm : DomainMap)
    (chainId : Nat) (q : MMQuote) (ds : List Nat)
    (hd : getPoolDomainSeparator C dm chainId = some ds) :
    signMMQuote C key dm chainId q =
      some (normalizeV (C.ecdsaSign key (C.keccak
        (0x19 :: 0x01 :: (ds ++ C.keccak (abiPackStatic
          [ .b32 (mmQuoteTypeHash C), .addr q.pool, .addr q.fromAddr, .addr q.toAddr,
            .addr q.inputToken, .addr q.outputToken, .u256 q.amountIn, .u256 q.amountOut,
            .u256 q.deadline, .u256 q.nonce, .b32 (C.keccak q.extraData)])))))) := by
  rw [signMMQuote_some C key dm chainId q ds hd]; rfl

/-- Witness for C1 at a concrete registered chain and quote. -/
theorem signMMQuote_digest_formula_witness :
    signMMQuote wCrypto wKey wDM 56 wQuoteW =
      some (normalizeV (wCrypto.ecdsaSign wKey (wCrypto.keccak
        (0x19 :: 0x01 :: (domainSeparator wCrypto wEntry ++ wCrypto.keccak (abiPackStatic
          [ .b32 (mmQuoteTypeHash wCrypto), .addr wQuoteW.pool, .addr wQuoteW.fromAddr,
            .addr wQuoteW.toAddr, .addr wQuoteW.inputToken, .addr wQuoteW.outputToken,
            .u256 wQuoteW.amountIn, .u256 wQuoteW.amountOut, .u256 wQuoteW.deadline,
            .u256 wQuoteW.nonce, .b32 (wCrypto.keccak wQuoteW.extraData)])))))) :=
  signMMQuote_digest_formula wCrypto wKey wDM 56 wQuoteW
    (domainSeparator wCrypto wEntry) rfl

/-- C2: for a fixed key and quote, `SignMMQuote` is deterministic (the
embedding is a pure function of its inputs, so repeated calls agree), and —
given the go-ethereum `crypto.Sign` contract that raw signatures are 65
bytes with recovery byte 0 or 1 — every successful result has recovery byte
(the 65th signature byte) exactly 27 or 28. -/
theorem signMMQuote_det_and_recovery (C : Crypto) (key : List Nat) (dm : DomainMap)
    (chainId : Nat) (q : MMQuote) (s : List Nat)
    (hlen : ∀ d, (C.ecdsaSign key d).length = 65)
    (hv : ∀ d, (C.ecdsaSign key d).getD 64 0 < 2)
    (hs : signMMQuote C key dm chainId q = some s) :
    signMMQuote C key dm chainId q = signMMQuote C key dm chainId q ∧
      (s.getD 64 0 = 27 ∨ s.getD 64 0 = 28) := by
  refine ⟨rfl, ?_⟩
  rcases h' : getPoolDomainSeparator C dm chainId with _ | ds
  · have hnone : signMMQuote C key dm chainId q = none := by simp [signMMQuote, h']
    rw [hnone] at hs; cases hs
  · rw [signMMQuote_some C key dm chainId q ds h'] at hs
    have hs' := (Option.some.inj hs).symm
    have h1 := hlen (C.keccak (0x19 :: 0x01 :: (ds ++ hashMMQuote C q)))
    have h2 := hv (C.keccak (0x19 :: 0x01 :: (ds ++ hashMMQuote C q)))
    rw [hs', normalizeV, if_pos (by omega)]
    rw [List.getD_eq_getElem?_getD,
      List.getElem?_set_eq_of_lt _ (by rw [h1]; omega)]
    simp only [Option.getD_some]
    omega

/-- Witness for C2: a concrete signer satisfying the 65-byte/`v < 2`
contract, whose output signature has recovery byte 27 or 28. -/
theorem signMMQuote_det_and_recovery_witness :
    (signMMQuote wCrypto wKey wDM 56 wQuoteW = signMMQuote wCrypto wKey wDM 56 wQuoteW) ∧
      (wSig.getD 64 0 = 27 ∨ wSig.getD 64 0 = 28) :=
  signMMQuote_det_and_recovery wCrypto wKey wDM 56 wQuoteW wSig
    (fun _ =>
      (by decide : (List.replicate 64 (wKey.getD 0 0 % 256) ++ [wKey.length % 2]).length = 65))
    (fun _ =>
      (by decide : (List.replicate 64 (wKey.getD 0 0 % 256) ++ [wKey.length % 2]).getD 64 0 < 2))
    (by decide)

/-- Helper: the 32-bit wrap is the identity below `2^31`. -/
lemma wrap32_eq (z : Int) (h0 : 0 ≤ z) (h1 : z < 2 ^ 31) : wrap32 z = z := by
  unfold wrap32; omega

/-- Helper: one clamped growth step preserves the `min` closed form. -/
lemma min_mul_step (a c m : Int) (hm : 1 ≤ m) (ha : 0 ≤ a) (hc : 0 ≤ c) :
    min (min a c * m) c = min (a * m) c := by
  rcases le_total a c with h | h
  · rw [min_eq_left h]
  · rw [min_eq_right h, min_eq_right (le_mul_of_one_le_right hc hm),
      min_eq_right (h.trans (le_mul_of_one_le_right ha hm))]

/-- Helper: state of the reconnector after `n` `NextInterval` calls, for an
integer multiplier `m ≥ 1`, nonnegative initial interval below the ceiling,
and fewer than `2^31` calls: the configuration is unchanged, the attempt
counter equals `n`, and the pending interval is `min (I·m^n) C`. -/
lemma iterCalls_newReconnector_spec (I C A m : Int) (hm : 1 ≤ m) (hI : 0 ≤ I)
    (hIC : I ≤ C) (hC : 0 < C) :
    ∀ n : Nat, n < 2 ^ 31 →
      (iterCalls (newReconnector ⟨I, C, A, m, 1⟩) n).config = ⟨I, C, A, m, 1⟩ ∧
      (iterCalls (newReconnector ⟨I, C, A, m, 1⟩) n).attempts = (n : Int) ∧
      (iterCalls (newReconnector ⟨I, C, A, m, 1⟩) n).interval = min (I * m ^ n) C := by
  have hnew : newReconnector ⟨I, C, A, m, 1⟩ =
      { config := ⟨I, C, A, m, 1⟩, attempts := 0, interval := I } := by
    have hm0 : m ≠ 0 := by omega
    have hC0 : C ≠ 0 := by omega
    simp [newReconnector, hm0, hC0]
  intro n
  induction n with
  | zero =>
    intro _
    rw [hnew]
    exact ⟨rfl, rfl, by simp [iterCalls, min_eq_left hIC]⟩
  | succ k ih =>
    intro hlt
    obtain ⟨hcfg, hatt, hint⟩ := ih (by omega)
    have hstep : iterCalls (newReconnector ⟨I, C, A, m, 1⟩) (k + 1) =
        (nextInterval (iterCalls (newReconnector ⟨I, C, A, m, 1⟩) k)).2 := rfl
    have hval : (if C < min (I * m ^ k) C * m then C else min (I * m ^ k) C * m) =
        min (min (I * m ^ k) C * m) C := by
      rcases le_or_lt (min (I * m ^ k) C * m) C with h | h
      · rw [if_neg (not_lt.mpr h), min_eq_left h]
      · rw [if_pos h, min_eq_right h.le]
    refine ⟨?_, ?_, ?_⟩
    · rw [hstep]; simp [nextInterval, hcfg]
    · rw [hstep]; simp only [nextInterval, hcfg, hatt, hint]
      rw [show ((k : Int) + 1) = ((k + 1 : Nat) : Int) by push_cast; ring]
      rw [wrap32_eq _ (by positivity) (by exact_mod_cast hlt)]
    · rw [hstep]; simp only [nextInterval, hcfg, hatt, hint]
      rw [Int.tdiv_one, hval, min_mul_step (I * m ^ k) C m hm
        (mul_nonneg hI (pow_nonneg (by omega) k)) hC.le]
      rw [pow_succ, ← mul_assoc]

/-- Counterexample to C4 as stated: with initial interval 3 ns, multiplier
1.5 and ceiling 10^6 ns, the second `NextInterval` call returns 4 ns (the
`time.Duration` conversion truncates 4.5), not `min(3·1.5^(2-1), 10^6) =
4.5`. -/
theorem nextInterval_min_formula_cx :
    ¬ ((nthInterval cxRec 2 : ℚ) = min ((3 : ℚ) * (3 / 2) ^ (2 - 1)) (1000000 : ℚ)) := by
  have h1 : nthInterval cxRec 2 = 4 := by decide
  rw [h1, min_eq_left (by norm_num)]
  norm_num

/-- C4 (amended): for an integer multiplier `m ≥ 1` (in particular the
default 2.0), nonnegative initial interval `I` at most the ceiling `C > 0`
with `C·m < 2^53` (so every `float64` computation in `NextInterval` is
exact — every interval stays ≤ `C` and every product `interval·m ≤ C·m` is
an integer below `2^53`; the repository defaults `I = 5 s`, `C = 160 s`,
`m = 2` in nanoseconds satisfy this bound by six orders of magnitude), and
`n < 2^31` calls (the attempt counter is an `int32`): the `n`-th
`NextInterval()` call returns `min(I·m^(n-1), C)`, `Attempts()` after `n`
calls equals `n`, and after `Reset()` the next `NextInterval()` call
returns `I` again.  (For a fractional multiplier each step truncates the
product toward zero, so the exact closed form fails — see the
counterexample; above `2^53` the `float64` conversion rounds and the
closed form fails as well, hence the bound.) -/
theorem reconnector_backoff_amended (I C A m : Int) (n : Nat)
    (hm : 1 ≤ m) (hI : 0 ≤ I) (hIC : I ≤ C) (hC : 0 < C)
    (_hfit : C * m < 2 ^ 53)
    (hn1 : 1 ≤ n) (hn : n < 2 ^ 31) :
    nthInterval (newReconnector ⟨I, C, A, m, 1⟩) n = min (I * m ^ (n - 1)) C ∧
    (iterCalls (newReconnector ⟨I, C, A, m, 1⟩) n).attempts = (n : Int) ∧
    nthInterval (resetReconnector (iterCalls (newReconnector ⟨I, C, A, m, 1⟩) n)) 1 = I := by
  obtain ⟨hcfg', hatt', hint'⟩ :=
    iterCalls_newReconnector_spec I C A m hm hI hIC hC (n - 1) (by omega)
  obtain ⟨hcfg, hatt, hint⟩ := iterCalls_newReconnector_spec I C A m hm hI hIC hC n hn
  refine ⟨?_, hatt, ?_⟩
  · unfold nthInterval
    simp [nextInterval, hint']
  · unfold nthInterval
    simp [iterCalls, nextInterval, resetReconnector, hcfg]

/-- Witness for C4 (amended) at the repository defaults `I = 5 s`-scale
units, `m = 2`, `C = 32·I`. -/
theorem reconnector_backoff_amended_witness :
    nthInterval (newReconnector ⟨5, 160, 0, 2, 1⟩) 3 =
      min (5 * (2 : Int) ^ (3 - 1)) 160 ∧
    (iterCalls (newReconnector ⟨5, 160, 0, 2, 1⟩) 3).attempts = ((3 : Nat) : Int) ∧
    nthInterval (resetReconnector (iterCalls (newReconnector ⟨5, 160, 0, 2, 1⟩) 3)) 1 = 5 :=
  reconnector_backoff_amended 5 160 0 2 3 (by norm_num) (by norm_num) (by norm_num)
    (by norm_num) (by norm_num) (by norm_num) (by norm_num)

/-- Counterexample to C6 as stated: with read timeout 90 and no activity
since time 0, the ticks at times 100 and 130 form one sustained timeout
episode, yet `TriggerReconnect` is invoked twice — once per tick — not
exactly once (the suppression flag only deduplicates the warning log). -/
theorem heartbeat_trigger_once_cx :
    ¬ ((runChecks cxHBConfig cxHBState [100, 130]).2.count HBAction.trigger = 1) := by
  decide

/-- Helper: one `check` tick never changes the `lastReceived` timestamp
(only `OnMessageReceived` does). -/
lemma hbCheck_lastReceived (cfg : HeartbeatConfig) (now : Int) (s : HBState) :
    (hbCheck cfg now s).1.lastReceived = s.lastReceived := by
  simp only [hbCheck]
  split <;> rfl

/-- Helper: a run of ticks never changes the `lastReceived` timestamp. -/
lemma runChecks_lastReceived (cfg : HeartbeatConfig) (s : HBState) (ts : List Int) :
    (runChecks cfg s ts).1.lastReceived = s.lastReceived := by
  induction ts generalizing s with
  | nil => rfl
  | cons t ts ih => simp [runChecks, ih, hbCheck_lastReceived]

/-- Helper: with the suppression flag already set, a run of timeout ticks
logs no further warning, calls `TriggerReconnect` once per tick, and leaves
the flag set. -/
lemma runChecks_flagged (cfg : HeartbeatConfig) (s : HBState) (ts : List Int)
    (hflag : s.timeoutDetected = true)
    (hto : ∀ t ∈ ts, cfg.readTimeout < t - s.lastReceived) :
    (runChecks cfg s ts).2.count HBAction.warnLog = 0 ∧
      (runChecks cfg s ts).2.count HBAction.trigger = ts.length ∧
      (runChecks cfg s ts).1.timeoutDetected = true := by
  induction ts generalizing s with
  | nil => simpa [runChecks] using hflag
  | cons t ts ih =>
    have ht := hto t (List.mem_cons_self t ts)
    have h1 : hbCheck cfg t s = ({ s with timeoutDetected := true }, [HBAction.trigger]) := by
      simp [hbCheck, ht, hflag]
    obtain ⟨hw, htr, hfl⟩ := ih { s with timeoutDetected := true } rfl
      (fun t' h' => hto t' (List.mem_cons_of_mem t h'))
    refine ⟨?_, ?_, ?_⟩ <;> simp [runChecks, h1, List.count_cons, hw, htr, hfl]

/-- C6 (amended): during a sustained timeout episode of `n ≥ 1` consecutive
ticks, the warning log fires exactly once (deduplicated by the
`timeoutDetected` flag), while the session's `TriggerReconnect` is invoked
on every tick of the episode — `n` times, relying on the session's
idempotent trigger; the episode leaves the suppression flag set, and the
first subsequent tick whose elapsed time is back under the timeout (e.g.
after a successful reconnect reset activity) clears the set flag. -/
theorem heartbeat_episode_amended (cfg : HeartbeatConfig) (s : HBState) (ts : List Int)
    (now : Int)
    (hflag : s.timeoutDetected = false)
    (hto : ∀ t ∈ ts, cfg.readTimeout < t - s.lastReceived)
    (hne : ts ≠ [])
    (hnow : now - s.lastReceived ≤ cfg.readTimeout) :
    (runChecks cfg s ts).2.count HBAction.warnLog = 1 ∧
      (runChecks cfg s ts).2.count HBAction.trigger = ts.length ∧
      (runChecks cfg s ts).1.timeoutDetected = true ∧
      (hbCheck cfg now (runChecks cfg s ts).1).1.timeoutDetected = false := by
  cases ts with
  | nil => exact absurd rfl hne
  | cons t ts =>
    have ht := hto t (List.mem_cons_self t ts)
    have h1 : hbCheck cfg t s =
        ({ s with timeoutDetected := true }, [HBAction.warnLog, HBAction.trigger]) := by
      simp [hbCheck, ht, hflag]
    obtain ⟨hw, htr, hfl⟩ := runChecks_flagged cfg { s with timeoutDetected := true } ts rfl
      (fun t' h' => hto t' (List.mem_cons_of_mem t h'))
    refine ⟨?_, ?_, ?_, ?_⟩
    · simp [runChecks, h1, List.count_cons, hw]
    · simp [runChecks, h1, List.count_cons, htr]
    · simp [runChecks, h1, hfl]
    · simp [hbCheck, runChecks_lastReceived, not_lt.mpr hnow]

/-- Witness for C6 (amended): a three-tick sustained episode logs once,
triggers three times and leaves the flag set; an under-timeout tick at time
50 then clears the set flag. -/
theorem heartbeat_episode_amended_witness :
    (runChecks cxHBConfig cxHBState [100, 130, 200]).2.count HBAction.warnLog = 1 ∧
      (runChecks cxHBConfig cxHBState [100, 130, 200]).2.count HBAction.trigger =
        ([100, 130, 200] : List Int).length ∧
      (runChecks cxHBConfig cxHBState [100, 130, 200]).1.timeoutDetected = true ∧
      (hbCheck cxHBConfig 50 (runChecks cxHBConfig cxHBState [100, 130, 200]).1).1.timeoutDetected
        = false :=
  heartbeat_episode_amended cxHBConfig cxHBState [100, 130, 200] 50 rfl
    (by decide) (by decide) (by decide)

/-- C7: a session state becomes Ready only through the external handler's
`SetState` on a connection-acknowledgment with `success = true` (no internal
`SetState` call site of the client writes Ready), and the depth pusher's
push cycle transmits nothing whenever the state is not Ready. -/
theorem ready_only_by_ack (s : ConnState) (e : ClientEvent) (s' : ConnState)
    (provider : Nat → String → Option β) (cfg : ConfigM)
    (hprev : s ≠ ConnState.ready) (hr : stepState s e = ConnState.ready)
    (hs : s' ≠ ConnState.ready) :
    e = ClientEvent.connectionAck true ∧
      pushAllPairs s' provider cfg = [] ∧
      stepState s (ClientEvent.connectionAck true) = ConnState.ready := by
  refine ⟨?_, ?_, rfl⟩
  · cases e with
    | dialStart => simp [stepState] at hr
    | dialFail => simp [stepState] at hr
    | dialSuccess => simp [stepState] at hr
    | closeSession => simp [stepState] at hr
    | reconnectBegin => simp [stepState] at hr
    | connectionAck b =>
      cases b
      · simp [stepState] at hr
        exact absurd hr hprev
      · rfl
  · simp only [pushAllPairs, if_pos hs]

/-- Witness for C7: the Connected → Ready transition on a success
acknowledgment, and an empty push cycle in the Disconnected state. -/
theorem ready_only_by_ack_witness :
    ClientEvent.connectionAck true = ClientEvent.connectionAck true ∧
      pushAllPairs ConnState.disconnected wProvider
        { domains := [], pairs := [], validDurationMs := 0 } = [] ∧
      stepState ConnState.connected (ClientEvent.connectionAck true) = ConnState.ready :=
  ready_only_by_ack ConnState.connected (ClientEvent.connectionAck true)
    ConnState.disconnected wProvider { domains := [], pairs := [], validDurationMs := 0 }
    (by decide) (by decide) (by decide)

/-- C8: `Send` on a session whose state is neither Connected nor Ready (in
particular Disconnected) returns the "websocket not connected" error,
writes nothing to the transport and triggers no reconnect; consequently the
transport is only ever written in states Connected or Ready. -/
theorem clientSend_not_connected (state : ConnState) (conn : Option Unit)
    (marshal : α → Except String (List Nat)) (de we : Option String) (msg : α)
    (h1 : state ≠ ConnState.connected) (h2 : state ≠ ConnState.ready) :
    clientSend state conn marshal de we msg =
      ⟨.error "websocket not connected", [], false⟩ := by
  have hc : isConnected state = false := by
    cases state <;> simp_all [isConnected]
  simp [clientSend, hc]

/-- Witness for C8: sending on a Disconnected session with a live transport
handle still fails and writes nothing. -/
theorem clientSend_not_connected_witness :
    clientSend ConnState.disconnected (some ()) (fun _ : Unit => Except.ok [1]) none none () =
      ⟨.error "websocket not connected", [], false⟩ :=
  clientSend_not_connected ConnState.disconnected (some ())
    (fun _ : Unit => Except.ok [1]) none none () (by decide) (by decide)

/-- C5: for every quote request, `HandleQuoteRequest` returns a message —
either a quote response or a typed quote rejection — together with a `nil`
error; every failing step short-circuits to a rejection message rather than
surfacing a non-nil error to the caller. -/
theorem handleQuoteRequest_never_errors (h : HandlerM) (now : Int) (req : QuoteRequestM) :
    (handleQuoteRequest h now req).2 = none ∧
      ((∃ r, (handleQuoteRequest h now req).1 = Msg.quoteResponse r) ∨
        (∃ j, (handleQuoteRequest h now req).1 = Msg.quoteReject j)) := by
  unfold handleQuoteRequest processValidated
  dsimp only
  repeat' split
  all_goals
    first
      | exact ⟨rfl, Or.inr ⟨_, rfl⟩⟩
      | exact ⟨rfl, Or.inl ⟨_, rfl⟩⟩

/-- C9: a quote request whose nonce string does not parse as a base-10
integer is not rejected: the pipeline silently signs an `MMQuote` whose
nonce is 0 (see the `nonce := 0` quote in the signing hypothesis), while the
response's signed order echoes the original unparsed nonce string
(`nonce := req.nonce` in the response). -/
theorem nonce_fallback_zero (h : HandlerM) (now : Int) (req : QuoteRequestM)
    (domain : DomainCfg) (pc : PairCfg) (amountIn : Int) (qr : QuoteResultM)
    (sig : List Nat)
    (hval : validateRequest now req = none)
    (hdom : getEIP712Domain h.cfg req.chainId = some domain)
    (hin : hexToAddress req.tokenIn ≠ 0)
    (hout : hexToAddress req.tokenOut ≠ 0)
    (hpair : getPairConfig h.cfg req.chainId (addrHex (hexToAddress req.tokenIn))
      (addrHex (hexToAddress req.tokenOut)) = some pc)
    (hamt : parseDec req.amountIn = some amountIn)
    (hstrat : h.strategy
      { chainId := req.chainId, tokenIn := hexToAddress req.tokenIn,
        tokenOut := hexToAddress req.tokenOut, amountIn := amountIn,
        slippageBps := req.slippageBps } = Except.ok qr)
    (hnonce : parseDec req.nonce = none)
    (hsig : h.signFn req.chainId
      { pool := hexToAddress domain.verifyingContract
        fromAddr := hexToAddress req.recipient
        toAddr := hexToAddress req.recipient
        inputToken := hexToAddress req.tokenIn
        outputToken := hexToAddress req.tokenOut
        amountIn := amountIn
        amountOut := qr.amountOutMinimum
        deadline := req.deadline
        nonce := 0
        extraData := [] } = Except.ok sig) :
    handleQuoteRequest h now req =
      (Msg.quoteResponse
        { quoteId := req.quoteId
          chainId := req.chainId
          mmId := lowerStr (addrHex h.signerAddr)
          quote :=
            { tokenIn := lowerStr req.tokenIn
              tokenOut := lowerStr req.tokenOut
              amountIn := req.amountIn
              amountOut := qr.amountOut
              amountOutMinimum := qr.amountOutMinimum }
          order :=
            { signerAddr := lowerStr (addrHex h.signerAddr)
              pool := lowerStr domain.verifyingContract
              nonce := req.nonce
              amountIn := amountIn
              amountOut := qr.amountOutMinimum
              deadline := req.deadline
              extraData := []
              signature := sig }
          validUntil := now * 1000 + h.cfg.validDurationMs }, none) := by
  simp only [handleQuoteRequest, processValidated, hval, hdom, if_neg hin, if_neg hout,
    hpair, hamt, hstrat, hnonce, Option.getD_none, hsig]

/-- Witness for C9: the request `wReqNonce` (nonce string `"abc"`) yields a
success response echoing `"abc"` while the signed quote carried nonce 0. -/
theorem nonce_fallback_zero_witness :
    handleQuoteRequest wHandler 1000 wReqNonce =
      (Msg.quoteResponse
        { quoteId := wReqNonce.quoteId
          chainId := wReqNonce.chainId
          mmId := lowerStr (addrHex wHandler.signerAddr)
          quote :=
            { tokenIn := lowerStr wReqNonce.tokenIn
              tokenOut := lowerStr wReqNonce.tokenOut
              amountIn := wReqNonce.amountIn
              amountOut := (3000 : Int)
              amountOutMinimum := (3000 : Int) }
          order :=
            { signerAddr := lowerStr (addrHex wHandler.signerAddr)
              pool := lowerStr wDomainCfg.verifyingContract
              nonce := wReqNonce.nonce
              amountIn := (5 : Int)
              amountOut := (3000 : Int)
              deadline := wReqNonce.deadline
              extraData := []
              signature := [56, 0] }
          validUntil := 1000 * 1000 + wHandler.cfg.validDurationMs }, none) :=
  nonce_fallback_zero wHandler 1000 wReqNonce wDomainCfg wPair 5 ⟨3000, 3000⟩ [56, 0]
    (by decide) (by decide) (by decide) (by decide) (by decide) (by decide) rfl
    (by decide) rfl

/-- C3: a request whose `token_in` parses to the zero address, on a chain
with a wrapped-native-token mapping and a configured pair for the
substituted tokens, succeeds: the pair lookup and the pricing strategy are
invoked with the wrapped token address `w` (see the pair and strategy
hypotheses), but the `MMQuote` that is signed carries the original (zero)
`token_in` (`inputToken := 0`, which by `hin0` is the parsed original) and
the original `token_out` from the request. -/
theorem zero_address_substitution (h : HandlerM) (now : Int) (req : QuoteRequestM)
    (domain : DomainCfg) (w : Nat) (pc : PairCfg) (amountIn : Int) (qr : QuoteResultM)
    (sig : List Nat)
    (hval : validateRequest now req = none)
    (hdom : getEIP712Domain h.cfg req.chainId = some domain)
    (hin0 : hexToAddress req.tokenIn = 0)
    (hw : wrappedNativeTokens req.chainId = some w)
    (hout : hexToAddress req.tokenOut ≠ 0)
    (hpair : getPairConfig h.cfg req.chainId (addrHex w)
      (addrHex (hexToAddress req.tokenOut)) = some pc)
    (hamt : parseDec req.amountIn = some amountIn)
    (hstrat : h.strategy
      { chainId := req.chainId, tokenIn := w, tokenOut := hexToAddress req.tokenOut,
        amountIn := amountIn, slippageBps := req.slippageBps } = Except.ok qr)
    (hsig : h.signFn req.chainId
      { pool := hexToAddress domain.verifyingContract
        fromAddr := hexToAddress req.recipient
        toAddr := hexToAddress req.recipient
        inputToken := 0
        outputToken := hexToAddress req.tokenOut
        amountIn := amountIn
        amountOut := qr.amountOutMinimum
        deadline := req.deadline
        nonce := (parseDec req.nonce).getD 0
        extraData := [] } = Except.ok sig) :
    handleQuoteRequest h now req =
      (Msg.quoteResponse
        { quoteId := req.quoteId
          chainId := req.chainId
          mmId := lowerStr (addrHex h.signerAddr)
          quote :=
            { tokenIn := lowerStr req.tokenIn
              tokenOut := lowerStr req.tokenOut
              amountIn := req.amountIn
              amountOut := qr.amountOut
              amountOutMinimum := qr.amountOutMinimum }
          order :=
            { signerAddr := lowerStr (addrHex h.signerAddr)
              pool := lowerStr domain.verifyingContract
              nonce := req.nonce
              amountIn := amountIn
              amountOut := qr.amountOutMinimum
              deadline := req.deadline
              extraData := []
              signature := sig }
          validUntil := now * 1000 + h.cfg.validDurationMs }, none) := by
  simp only [handleQuoteRequest, processValidated, hval, hdom, hin0, if_pos, hw,
    if_neg hout, hpair, hamt, hstrat, hsig]

/-- Witness for C3: the request `wReqZero` (`token_in = "0x0"`) on chain 56
succeeds with the WBNB-substituted lookup, and the response's quote info
still carries the lowercased original token strings. -/
theorem zero_address_substitution_witness :
    handleQuoteRequest wHandler 1000 wReqZero =
      (Msg.quoteResponse
        { quoteId := wReqZero.quoteId
          chainId := wReqZero.chainId
          mmId := lowerStr (addrHex wHandler.signerAddr)
          quote :=
            { tokenIn := lowerStr wReqZero.tokenIn
              tokenOut := lowerStr wReqZero.tokenOut
              amountIn := wReqZero.amountIn
              amountOut := (3000 : Int)
              amountOutMinimum := (3000 : Int) }
          order :=
            { signerAddr := lowerStr (addrHex wHandler.signerAddr)
              pool := lowerStr wDomainCfg.verifyingContract
              nonce := wReqZero.nonce
              amountIn := (5 : Int)
              amountOut := (3000 : Int)
              deadline := wReqZero.deadline
              extraData := []
              signature := [56, 7] }
          validUntil := 1000 * 1000 + wHandler.cfg.validDurationMs }, none) :=
  zero_address_substitution wHandler 1000 wReqZero wDomainCfg
    (hexToAddress "0xbb4cdb9cbd36b01bd1cbaebf2de08d9173bc095c") wPair 5 ⟨3000, 3000⟩
    [56, 7] (by decide) (by decide) (by decide) (by decide) (by decide) (by decide)
    (by decide) rfl rfl

/-- C10: with the other validation checks passing, request validation
accepts iff `amount_in` is literally neither `""` nor `"0"` (a literal
string comparison), so the non-canonical zero `"00"` passes validation and
the pipeline proceeds to the parse and strategy steps
(`handleQuoteRequest` reduces to the post-validation pipeline) instead of
being rejected at validation. -/
theorem validate_amount_literal (hm : HandlerM) (now : Int) (req : QuoteRequestM)
    (h1 : req.quoteId ≠ "") (h2 : req.chainId ≠ 0) (h3 : req.tokenIn ≠ "")
    (h4 : req.tokenOut ≠ "") (h5 : req.recipient ≠ "") (h6 : req.deadline ≠ 0)
    (h7 : ¬ req.deadline < now) :
    (validateRequest now req = none ↔ (req.amountIn ≠ "" ∧ req.amountIn ≠ "0")) ∧
      (req.amountIn = "00" → validateRequest now req = none ∧
        handleQuoteRequest hm now req = processValidated hm now req) := by
  have hv : validateRequest now req =
      (if req.amountIn = "" ∨ req.amountIn = "0" then
        some "amount_in is required and must be positive" else none) := by
    simp only [validateRequest, if_neg h1, if_neg h2, if_neg h3, if_neg h4, if_neg h5,
      if_neg h6, if_neg h7]
  constructor
  · rw [hv]
    by_cases hc : req.amountIn = "" ∨ req.amountIn = "0" <;> simp [hc] <;> tauto
  · intro h00
    have hcc : ¬ (req.amountIn = "" ∨ req.amountIn = "0") := by
      rw [h00]; decide
    have hnone : validateRequest now req = none := by rw [hv, if_neg hcc]
    refine ⟨hnone, ?_⟩
    unfold handleQuoteRequest
    rw [hnone]

/-- Witness for C10: the request `wReq00` with `amount_in = "00"` passes
validation and proceeds past it. -/
theorem validate_amount_literal_witness :
    (validateRequest 1000 wReq00 = none ↔ (wReq00.amountIn ≠ "" ∧ wReq00.amountIn ≠ "0")) ∧
      (wReq00.amountIn = "00" → validateRequest 1000 wReq00 = none ∧
        handleQuoteRequest wHandler 1000 wReq00 = processValidated wHandler 1000 wReq00) :=
  validate_amount_literal wHandler 1000 wReq00 (by decide) (by decide) (by decide)
    (by decide) (by decide) (by decide) (by decide)

end DarkPoolMM
